import Mathlib

/-!
Shallow embedding of the core of `big_fluffy_dise` (a big-key encapsulation
scheme): the block-addressable key store (`src/storage/disk.rs`,
`src/storage/util.rs`), the deterministic SHAKE256 streaming generator
(`src/generation/shake256.rs`), and the key-encapsulation mechanism
(`src/kem/bigkey.rs`).

Modelling conventions:
- Bytes are `Nat` values; byte buffers and file contents are `List Nat`.
- Rust `u64` arithmetic that can overflow is modelled with an explicit
  `% 2 ^ 64` (release-mode wrapping semantics).
- Fallible Rust code returning `Result<T, BigKeyError>` becomes
  `Except BigKeyError T`.  A Rust panic (`unwrap` on `None`) or divergence is
  modelled by an outer `Option`: `none` means the call does not return.
- The `f32` field `leakage_tolerance` is never used in any arithmetic by the
  source (it is only stored), so it is modelled as `Rat`; the degenerate
  values 0 and 1 are exactly representable in `f32`.
-/

namespace BFD

/-- Mirrors `BlockSize` from `src/traits/types.rs`. -/
structure BlockSize where
  bit_len : Nat
  byte_len : Nat
deriving DecidableEq, Repr

def BLOCK_8 : BlockSize := { bit_len := 8, byte_len := 1 }

def BLOCK_32 : BlockSize := { bit_len := 32, byte_len := 4 }

def BLOCK_64 : BlockSize := { bit_len := 64, byte_len := 8 }

def BLOCK_512 : BlockSize := { bit_len := 512, byte_len := 64 }

def BLOCK_4096 : BlockSize := { bit_len := 4096, byte_len := 512 }

def BLOCK_4K : BlockSize := { bit_len := 32768, byte_len := 4096 }

/-- Mirrors `SecurityLevel` from `src/traits/types.rs`. -/
inductive SecurityLevel where
  | Bits128
  | Bits256
deriving DecidableEq, Repr

/-- The `std::io::ErrorKind` values the embedded code can produce. -/
inductive IoErrorKind where
  | NotFound
  | InvalidInput
  | UnexpectedEof
deriving DecidableEq, Repr

/-- Mirrors `BigKeyError` from `src/traits/errors.rs`.  `IoError` keeps only
the `io::ErrorKind` of the wrapped `std::io::Error`. -/
inductive BigKeyError where
  | KeyLengthIndivisible (block_len key_len : Nat)
  | SeedTooShort (seed_len req_len : Nat)
  | OutputLengthTooLong (out_len max_len : Nat)
  | OutputLengthTooShort (out_len min_len : Nat)
  | FailedToWriteBigKey (expected_len wrote_len : Nat)
  | ProbeOffsetOutOfBounds (end_of_key offset probe_len : Nat)
  | ProbeBufferNotEqBlockSize (out_buf_len block_len : Nat)
  | IoError (kind : IoErrorKind)
deriving DecidableEq, Repr

/-- Mirrors `DiskStorage` from `src/storage/disk.rs`.  The backing `File` is
modelled by its current contents `file : List Nat`; the seek cursor is
irrelevant because every probe re-seeks from the start. -/
structure DiskStorage where
  block_size : BlockSize
  big_key_length : Nat
  file : List Nat
deriving DecidableEq, Repr

/-- Mirrors `IoMode` from `src/storage/disk.rs`. -/
inductive IoMode where
  | READ
  | WRITE
deriving DecidableEq, Repr

/-- Mirrors `check_key_evenly_divisible` from `src/storage/util.rs`: the
function builds a plain `std::io::Error` with kind `InvalidInput` (it does
NOT build the typed `BigKeyError::KeyLengthIndivisible`). -/
def check_key_evenly_divisible (block_size : BlockSize) (key_len : Nat) :
    Except IoErrorKind Unit :=
  if key_len % block_size.byte_len ≠ 0 then
    .error .InvalidInput
  else
    .ok ()

/-- Mirrors `DiskStorage::new` from `src/storage/disk.rs`.  `medium` is the
backing file's contents (`none` when the file does not exist, which makes
`File::open` fail with `NotFound`); in write mode `File::create` truncates,
so the in-model file starts empty.  The outer `none` models the panic of
`expected_size.unwrap()` when `expected_size` is `None` in write mode.  The
io error produced by `check_key_evenly_divisible` surfaces wrapped as
`BigKeyError::IoError`. -/
def DiskStorage.new (block_size : BlockSize) (medium : Option (List Nat))
    (expected_size : Option Nat) (mode : IoMode) :
    Option (Except BigKeyError DiskStorage) :=
  match mode with
  | .READ =>
    match medium with
    | none => some (.error (.IoError .NotFound))
    | some f =>
      match check_key_evenly_divisible block_size f.length with
      | .error e => some (.error (.IoError e))
      | .ok _ => some (.ok { block_size := block_size,
                             big_key_length := f.length, file := f })
  | .WRITE =>
    match expected_size with
    | none => none
    | some n =>
      match check_key_evenly_divisible block_size n with
      | .error e => some (.error (.IoError e))
      | .ok _ => some (.ok { block_size := block_size,
                             big_key_length := n, file := [] })

/-- Mirrors `StorageReader::open` for `DiskStorage` (named `open_for_read`
because `open` is a Lean keyword). -/
def DiskStorage.open_for_read (block_size : BlockSize)
    (medium : Option (List Nat)) : Option (Except BigKeyError DiskStorage) :=
  DiskStorage.new block_size medium none .READ

/-- Mirrors `StorageWriter::new_writer` for `DiskStorage`. -/
def DiskStorage.new_writer (block_size : BlockSize) (expected_size : Nat) :
    Option (Except BigKeyError DiskStorage) :=
  if expected_size < block_size.byte_len then
    some (.error (.OutputLengthTooShort expected_size block_size.byte_len))
  else
    DiskStorage.new block_size none (some expected_size) .WRITE

/-- Mirrors `DiskStorage::probe`.  `outLen` is the length of the caller's
output buffer; on success the returned list is the buffer's final contents.
The offset computation `index * byte_len as u64` and the bound computation
`offset + byte_len as u64` use wrapping 64-bit arithmetic, hence the
explicit `% 2 ^ 64`.  `seek` + `read_exact` succeed exactly when the
requested range lies within the file; otherwise `read_exact` fails with an
`UnexpectedEof` io error that surfaces via `?` as `BigKeyError::IoError`. -/
def DiskStorage.probe (s : DiskStorage) (index : Nat) (outLen : Nat) :
    Except BigKeyError (List Nat) :=
  if outLen ≠ s.block_size.byte_len then
    .error (.ProbeBufferNotEqBlockSize outLen s.block_size.byte_len)
  else
    let offset := index * s.block_size.byte_len % 2 ^ 64
    if (offset + s.block_size.byte_len) % 2 ^ 64 > s.big_key_length then
      .error (.ProbeOffsetOutOfBounds s.big_key_length offset
        s.block_size.byte_len)
    else
      if offset + s.block_size.byte_len ≤ s.file.length then
        .ok ((s.file.drop offset).take s.block_size.byte_len)
      else
        .error (.IoError .UnexpectedEof)

/-- Mirrors the `Write` impl of `DiskStorage` via `write_all`: append the
buffer to the backing file. -/
def DiskStorage.write_all (s : DiskStorage) (buf : List Nat) : DiskStorage :=
  { s with file := s.file ++ buf }

/-- Mirrors `StorageWriter::finalize` for `DiskStorage`: flush (a no-op on
the pure model), then compare the medium's observed length with the
expected length recorded at creation. -/
def DiskStorage.finalize (s : DiskStorage) : Except BigKeyError Unit :=
  if s.file.length ≠ s.big_key_length then
    .error (.FailedToWriteBigKey s.big_key_length s.file.length)
  else
    .ok ()

/-!
SHAKE256 (FIPS 202), mirroring the behavior of the `sha3` crate's
`Shake256` used by `Shake256Generator` in `src/generation/shake256.rs`.
State: 25 lanes of 64 bits, lane `(x, y)` at flat index `x + 5 * y`, bytes
little-endian within a lane.  Rate: 136 bytes.
-/

/-- Left-rotate a 64-bit lane by `n` (with `0 ≤ n < 64`). -/
def rotl64 (x n : Nat) : Nat :=
  ((x <<< n) ||| (x >>> (64 - n))) % 2 ^ 64

/-- Keccak rho rotation offsets, indexed by `x + 5 * y`, generated by the
standard traversal: starting from lane (1, 0), step `t` assigns rotation
`(t + 1)(t + 2)/2 mod 64` and moves to lane `(y, (2x + 3y) mod 5)`; lane
(0, 0) keeps rotation 0. -/
def rhoOffsets : List Nat :=
  ((List.range 24).foldl
    (fun st t =>
      (st.2.1, (2 * st.1 + 3 * st.2.1) % 5,
        st.2.2.set (st.1 + 5 * st.2.1) ((t + 1) * (t + 2) / 2 % 64)))
    ((1, 0, List.replicate 25 0) : Nat × Nat × List Nat)).2.2

/-- Keccak round constants. -/
def roundConstants : List Nat :=
  [0x0000000000000001, 0x0000000000008082, 0x800000000000808a,
   0x8000000080008000, 0x000000000000808b, 0x0000000080000001,
   0x8000000080008081, 0x8000000000008009, 0x000000000000008a,
   0x0000000000000088, 0x0000000080008009, 0x000000008000000a,
   0x000000008000808b, 0x800000000000008b, 0x8000000000008089,
   0x8000000000008003, 0x8000000000008002, 0x8000000000000080,
   0x000000000000800a, 0x800000008000000a, 0x8000000080008081,
   0x8000000000008080, 0x0000000080000001, 0x8000000080008008]

/-- Keccak theta step. -/
def theta (A : List Nat) : List Nat :=
  let C := (List.range 5).map fun x =>
    A.getD x 0 ^^^ A.getD (x + 5) 0 ^^^ A.getD (x + 10) 0 ^^^
      A.getD (x + 15) 0 ^^^ A.getD (x + 20) 0
  let D := (List.range 5).map fun x =>
    C.getD ((x + 4) % 5) 0 ^^^ rotl64 (C.getD ((x + 1) % 5) 0) 1
  (List.range 25).map fun i => A.getD i 0 ^^^ D.getD (i % 5) 0

/-- Keccak rho and pi steps combined: output lane `(xp, yp)` is the rotated
input lane `(x, y)` with `y = xp` and `x = (xp + 3 * yp) % 5`. -/
def rhoPi (A : List Nat) : List Nat :=
  (List.range 25).map fun j =>
    let x := (j % 5 + 3 * (j / 5)) % 5
    let y := j % 5
    rotl64 (A.getD (x + 5 * y) 0) (rhoOffsets.getD (x + 5 * y) 0)

/-- Keccak chi step; complement of a lane is xor with `2 ^ 64 - 1`. -/
def chi (B : List Nat) : List Nat :=
  (List.range 25).map fun j =>
    B.getD j 0 ^^^
      ((B.getD ((j % 5 + 1) % 5 + 5 * (j / 5)) 0 ^^^ (2 ^ 64 - 1)) &&&
        B.getD ((j % 5 + 2) % 5 + 5 * (j / 5)) 0)

/-- Keccak iota step: xor the round constant into lane `(0, 0)`. -/
def iota (A : List Nat) (rc : Nat) : List Nat :=
  match A with
  | [] => []
  | a :: rest => (a ^^^ rc) :: rest

/-- The Keccak-f[1600] permutation: 24 rounds. -/
def keccakF (A : List Nat) : List Nat :=
  roundConstants.foldl (fun st rc => iota (chi (rhoPi (theta st))) rc) A

/-- Combine (up to) 8 bytes, little-endian, into a 64-bit lane. -/
def bytesToLane (bs : List Nat) : Nat :=
  bs.foldr (fun b acc => b + 256 * acc) 0

/-- Xor a 136-byte rate block into the state (lanes 0..16). -/
def xorBlock (st : List Nat) (block : List Nat) : List Nat :=
  (List.range 25).map fun i =>
    st.getD i 0 ^^^ bytesToLane ((block.drop (8 * i)).take 8)

/-- Absorb `c` leading 136-byte rate blocks of `p` into the state. -/
def absorbBlocksGo : Nat → List Nat → List Nat → List Nat
  | 0, st, _ => st
  | c + 1, st, p =>
    absorbBlocksGo c (keccakF (xorBlock st (p.take 136))) (p.drop 136)

/-- Absorb a padded message (length a positive multiple of 136) block by
block. -/
def absorbChunks (st : List Nat) (p : List Nat) : List Nat :=
  absorbBlocksGo (p.length / 136) st p

/-- SHAKE padding: domain suffix `0x1F`, zero fill, final `0x80` (merged to
`0x9F` when only one padding byte fits). -/
def padShake (m : List Nat) : List Nat :=
  let q := 136 - m.length % 136
  if q = 1 then m ++ [0x9F]
  else m ++ [0x1F] ++ List.replicate (q - 2) 0 ++ [0x80]

/-- The first 136 bytes of the state (one squeezed rate block). -/
def takeBytes (st : List Nat) : List Nat :=
  (List.range 136).map fun i => (st.getD (i / 8) 0 >>> (8 * (i % 8))) % 256

/-- Squeeze `c` rate blocks from the sponge. -/
def squeezeBlocks : Nat → List Nat → List Nat
  | 0, _ => []
  | c + 1, st => takeBytes st ++ squeezeBlocks c (keccakF st)

/-- The first `n` bytes of the SHAKE256 output stream for message `m`. -/
def shake256 (m : List Nat) (n : Nat) : List Nat :=
  (squeezeBlocks (n / 136 + 1)
    (absorbChunks (List.replicate 25 0) (padShake m))).take n

/-- The fixed 64-byte seed `"0123456789abcdef"` repeated four times, used by
the repository's known-answer tests. -/
def seed64 : List Nat :=
  [48, 49, 50, 51, 52, 53, 54, 55, 56, 57, 97, 98, 99, 100, 101, 102,
   48, 49, 50, 51, 52, 53, 54, 55, 56, 57, 97, 98, 99, 100, 101, 102,
   48, 49, 50, 51, 52, 53, 54, 55, 56, 57, 97, 98, 99, 100, 101, 102,
   48, 49, 50, 51, 52, 53, 54, 55, 56, 57, 97, 98, 99, 100, 101, 102]

/-!
The streaming generator, mirroring `src/generation/shake256.rs`.  The
incremental `Sha3XofReader` is modelled by the stream position: a reader
that has already delivered `pos` bytes returns, on the next `read_exact` of
`b` bytes, bytes `pos .. pos + b` of the SHAKE256 output stream.
-/

/-- Mirrors `MIN_SEED_LENGTH` from `src/generation/shake256.rs`. -/
def MIN_SEED_LENGTH : Nat := 32

/-- Mirrors `MAX_OUTPUT_LENGTH = u64::max_value() as usize` from
`src/generation/shake256.rs` (on a 64-bit target). -/
def MAX_OUTPUT_LENGTH : Nat := 2 ^ 64 - 1

/-- Mirrors the seed-length validation of `Shake256Generator::from_seed`. -/
def Shake256Generator.from_seed (seed : List Nat) : Except BigKeyError Unit :=
  if seed.length < MIN_SEED_LENGTH then
    .error (.SeedTooShort seed.length MIN_SEED_LENGTH)
  else
    .ok ()

/-- The `?`-propagation of `storage_method.finalize()` at the end of
`Shake256Generator::generate`, applied to the final store state. -/
def genFinish (s : DiskStorage) : Except BigKeyError DiskStorage :=
  match DiskStorage.finalize s with
  | .error e => .error e
  | .ok _ => .ok s

/-- The `while total_written < length_bytes` loop of
`Shake256Generator::generate`: each iteration fills a fresh
`byte_len`-sized buffer from the XOF (stream bytes `pos .. pos + b`),
appends it with `write_all`, and advances `total_written` by
`buf.capacity() = byte_len`.  `fuel` makes the recursion structural; `none`
models non-termination (reachable only when `byte_len = 0`). -/
def genLoop (seed : List Nat) (b len : Nat) :
    Nat → Nat → Nat → DiskStorage → Option (DiskStorage × Nat)
  | 0, _, _, _ => none
  | fuel + 1, pos, total, s =>
    if total < len then
      genLoop seed b len fuel (pos + b) (total + b)
        (DiskStorage.write_all s ((shake256 seed (pos + b)).drop pos))
    else
      some (s, total)

/-- Mirrors `Shake256Generator::generate`.  The outer `Option` is the panic
and divergence marker: `optional_seed.unwrap()` panics when the seed is
`None` (reached whenever `length_bytes ≤ MAX_OUTPUT_LENGTH`), and the write
loop never terminates when the store's block size is zero.  On success the
result carries the final store state (the Rust code mutates the store in
place and returns `Ok(())`). -/
def Shake256Generator.generate (storage_method : DiskStorage)
    (optional_seed : Option (List Nat)) (length_bytes : Nat) :
    Option (Except BigKeyError DiskStorage) :=
  if length_bytes > MAX_OUTPUT_LENGTH then
    some (.error (.OutputLengthTooLong length_bytes MAX_OUTPUT_LENGTH))
  else
    match optional_seed with
    | none => none
    | some seed =>
      match Shake256Generator.from_seed seed with
      | .error e => some (.error e)
      | .ok _ =>
        match genLoop seed storage_method.block_size.byte_len length_bytes
            (length_bytes + 1) 0 0 storage_method with
        | none => none
        | some (s2, _) => some (genFinish s2)

/-!
The key-encapsulation mechanism, mirroring `src/kem/bigkey.rs` with the
storage scheme specialized to `DiskStorage` and the digest state abstracted
to a type parameter.
-/

/-- Mirrors the `BigKey` struct from `src/kem/bigkey.rs`.  The
`leakage_tolerance : f32` field is modelled as `Rat` (the source performs
no arithmetic on it); `xof : &mut H` is a value of the abstract digest
state type `α`. -/
structure BigKey (α : Type) where
  security_level : SecurityLevel
  leakage_tolerance : Rat
  storage_scheme : DiskStorage
  xof : α

/-- Mirrors `BigKeyKem::new_big_key` for `BigKey`: the source performs no
validation whatsoever — it unconditionally packs the four arguments into
the struct and cannot fail (its return type is `Self`, not `Result`). -/
def BigKey.new_big_key {α : Type} (security_level : SecurityLevel)
    (leakage_tolerance : Rat) (storage_scheme : DiskStorage) (xof : α) :
    BigKey α :=
  { security_level := security_level, leakage_tolerance := leakage_tolerance,
    storage_scheme := storage_scheme, xof := xof }

/-- Modelled from the spec: `BigKey::new_key` is `unimplemented!()` in
`src/src/kem/bigkey.rs`, so the probing/combining algorithm is modelled
from spec section 4.3.  The fresh random nonce is an explicit argument;
`indexFn nonce d totalBlocks` is the deterministic pseudorandom index
sequence of length `d` derived from the nonce (the spec leaves the exact
sampling procedure open, so it is a parameter); each indexed block is
probed from the store in index order; `combine nonce blocks` is the
collision-resistant combining function applied to the nonce and the
concatenation of the probed blocks; the nonce itself is packaged as the
returned locator.  Any probe error is surfaced. -/
def newKeySpec (indexFn : List Nat → Nat → Nat → List Nat)
    (combine : List Nat → List Nat → List Nat) (d : Nat) (s : DiskStorage)
    (nonce : List Nat) : Except BigKeyError (List Nat × List Nat) :=
  let totalBlocks := s.big_key_length / s.block_size.byte_len
  match (indexFn nonce d totalBlocks).mapM
      (fun i => s.probe i s.block_size.byte_len) with
  | .error e => .error e
  | .ok blocks => .ok (nonce, combine nonce blocks.flatten)

/-- Modelled from the spec: `BigKey::get_key` is `unimplemented!()` in
`src/src/kem/bigkey.rs`, so it is modelled from spec section 4.3: parse the
locator back into the nonce (the locator is exactly the nonce), regenerate
the identical index sequence, re-probe the same blocks, and recompute the
same combining function. -/
def getKeySpec (indexFn : List Nat → Nat → Nat → List Nat)
    (combine : List Nat → List Nat → List Nat) (d : Nat) (s : DiskStorage)
    (locator : List Nat) : Except BigKeyError (List Nat) :=
  let totalBlocks := s.big_key_length / s.block_size.byte_len
  match (indexFn locator d totalBlocks).mapM
      (fun i => s.probe i s.block_size.byte_len) with
  | .error e => .error e
  | .ok blocks => .ok (combine locator blocks.flatten)

/-!
Supporting lemmas.
-/

theorem takeBytes_length (st : List Nat) : (takeBytes st).length = 136 := by
  simp [takeBytes]

theorem squeezeBlocks_length (c : Nat) :
    ∀ st : List Nat, (squeezeBlocks c st).length = 136 * c := by
  induction c with
  | zero => intro st; simp [squeezeBlocks]
  | succ n ih =>
    intro st
    simp only [squeezeBlocks, List.length_append, takeBytes_length, ih]
    ring

theorem shake256_length (m : List Nat) (n : Nat) : (shake256 m n).length = n := by
  simp only [shake256, List.length_take, squeezeBlocks_length]
  omega

theorem squeezeBlocks_take (c1 : Nat) :
    ∀ (c2 : Nat) (st : List Nat), c1 ≤ c2 →
      (squeezeBlocks c2 st).take (136 * c1) = squeezeBlocks c1 st := by
  induction c1 with
  | zero => intro c2 st _; simp [squeezeBlocks]
  | succ n ih =>
    intro c2 st h
    cases c2 with
    | zero => omega
    | succ m =>
      simp only [squeezeBlocks]
      rw [List.take_append_eq_append_take, takeBytes_length,
        List.take_of_length_le (by rw [takeBytes_length]; omega),
        show 136 * (n + 1) - 136 = 136 * n by ring_nf; omega,
        ih m _ (by omega)]

theorem shake256_take (m : List Nat) (n1 n2 : Nat) (h : n1 ≤ n2) :
    (shake256 m n2).take n1 = shake256 m n1 := by
  simp only [shake256]
  rw [List.take_take, min_eq_left h]
  have hc : n1 / 136 + 1 ≤ n2 / 136 + 1 := by
    have := Nat.div_le_div_right (c := 136) h
    omega
  calc (squeezeBlocks (n2 / 136 + 1)
          (absorbChunks (List.replicate 25 0) (padShake m))).take n1
      = ((squeezeBlocks (n2 / 136 + 1)
          (absorbChunks (List.replicate 25 0) (padShake m))).take
            (136 * (n1 / 136 + 1))).take n1 := by
        rw [List.take_take, min_eq_left (by omega)]
    _ = (squeezeBlocks (n1 / 136 + 1)
          (absorbChunks (List.replicate 25 0) (padShake m))).take n1 := by
        rw [squeezeBlocks_take _ _ _ hc]

theorem shake256_drop_append (m : List Nat) (p q r : Nat) (hpq : p ≤ q)
    (hqr : q ≤ r) :
    (shake256 m q).drop p ++ (shake256 m r).drop q = (shake256 m r).drop p := by
  rw [(shake256_take m q r hqr).symm]
  conv_rhs => rw [← List.take_append_drop q (shake256 m r)]
  rw [List.drop_append_eq_append_drop]
  have hlen : ((shake256 m r).take q).length = q := by
    rw [List.length_take, shake256_length]
    omega
  rw [hlen, Nat.sub_eq_zero_of_le hpq, List.drop_zero]

theorem ceil_step (r b : Nat) (hb : 0 < b) (hr : 0 < r) :
    (r + b - 1) / b = 1 + (r - b + b - 1) / b := by
  rcases le_or_lt r b with h | h
  · have hL : (r + b - 1) / b = 1 := Nat.div_eq_of_lt_le (by omega) (by omega)
    have hR : (r - b + b - 1) / b = 0 := by
      have h1 : r - b = 0 := by omega
      rw [h1]
      exact Nat.div_eq_of_lt (by omega)
    rw [hL, hR]
  · have h2 : r + b - 1 = (r - b + b - 1) + b := by omega
    rw [h2, Nat.add_div_right _ hb]
    omega

theorem ceil_bounds (len b : Nat) (hb : 0 < b) :
    len ≤ b * ((len + b - 1) / b) ∧ b * ((len + b - 1) / b) < len + b := by
  have h := Nat.div_add_mod (len + b - 1) b
  have h2 : (len + b - 1) % b < b := Nat.mod_lt _ hb
  omega

theorem genLoop_run (seed : List Nat) (b len : Nat) (hb : 0 < b) :
    ∀ (fuel pos total : Nat) (s : DiskStorage), len - total < fuel →
      genLoop seed b len fuel pos total s =
        some ({ s with file := s.file ++
            (shake256 seed (pos + b * ((len - total + b - 1) / b))).drop pos },
          total + b * ((len - total + b - 1) / b)) := by
  intro gas
  induction gas with
  | zero =>
    intro pos total s h
    omega
  | succ n ih =>
    intro pos total s h
    by_cases hlt : total < len
    · simp only [genLoop, if_pos hlt]
      rw [ih (pos + b) (total + b) _ (by omega)]
      have hr : 0 < len - total := by omega
      have hsub : len - total - b = len - (total + b) := by omega
      have hcnt : (len - total + b - 1) / b =
          1 + (len - (total + b) + b - 1) / b := by
        rw [← hsub]
        exact ceil_step _ _ hb hr
      rw [hcnt]
      have harg : pos + b * (1 + (len - (total + b) + b - 1) / b) =
          pos + b + b * ((len - (total + b) + b - 1) / b) := by ring
      have htot : total + b * (1 + (len - (total + b) + b - 1) / b) =
          total + b + b * ((len - (total + b) + b - 1) / b) := by ring
      rw [harg, htot]
      simp only [DiskStorage.write_all, List.append_assoc]
      rw [shake256_drop_append seed pos (pos + b)
        (pos + b + b * ((len - (total + b) + b - 1) / b)) (by omega) (by omega)]
    · simp only [genLoop, if_neg hlt]
      have hdiv : (len - total + b - 1) / b = 0 := by
        have h0 : len - total = 0 := by omega
        rw [h0]
        exact Nat.div_eq_of_lt (by omega)
      rw [hdiv]
      simp only [Nat.mul_zero, Nat.add_zero]
      rw [List.drop_eq_nil_of_le (by rw [shake256_length]), List.append_nil]

theorem generate_run (s : DiskStorage) (seed : List Nat) (len : Nat)
    (hb : 0 < s.block_size.byte_len) (hseed : MIN_SEED_LENGTH ≤ seed.length)
    (hlen : len ≤ MAX_OUTPUT_LENGTH) :
    Shake256Generator.generate s (some seed) len =
      some (genFinish { s with file := s.file ++
        (shake256 seed (s.block_size.byte_len *
          ((len + s.block_size.byte_len - 1) / s.block_size.byte_len))) }) := by
  unfold Shake256Generator.generate
  rw [if_neg (Nat.not_lt.mpr hlen)]
  simp only [Shake256Generator.from_seed, if_neg (Nat.not_lt.mpr hseed)]
  rw [genLoop_run seed _ len hb (len + 1) 0 0 s (by omega)]
  simp

/-!
Claim theorems.
-/

/-- Claim C1: for an unchanged key store, if `new_key` returns a locator and
a key, then `get_key` on that locator returns exactly the same key material.
Proved for the spec-modelled KEM (`new_key`/`get_key` are `unimplemented!()`
in the source): the round trip holds for every deterministic index
derivation and combining function. -/
theorem c1_get_key_reproduces_new_key
    (indexFn : List Nat → Nat → Nat → List Nat)
    (combine : List Nat → List Nat → List Nat) (d : Nat) (s : DiskStorage)
    (nonce locator key : List Nat)
    (h : newKeySpec indexFn combine d s nonce = .ok (locator, key)) :
    getKeySpec indexFn combine d s locator = .ok key := by
  simp only [newKeySpec] at h
  cases hm : (indexFn nonce d
      (s.big_key_length / s.block_size.byte_len)).mapM
      (fun i => s.probe i s.block_size.byte_len) with
  | error e =>
    simp only [hm] at h
    simp at h
  | ok blocks =>
    simp only [hm] at h
    injection h with hpair
    injection hpair with hA hB
    subst hA
    subst hB
    simp only [getKeySpec, hm]

/-- Claim C1 witness: a concrete instantiation on a three-block store. -/
theorem c1_get_key_reproduces_new_key_witness :
    getKeySpec (fun nonce d n => (List.range d).map fun j => (nonce.headD 0 + j) % n)
      (fun nonce blocks => nonce ++ blocks) 2 ⟨BLOCK_8, 3, [7, 8, 9]⟩ [1] =
      .ok [1, 8, 9] :=
  c1_get_key_reproduces_new_key _ _ 2 ⟨BLOCK_8, 3, [7, 8, 9]⟩ [1] [1] [1, 8, 9]
    (by rfl)

/-- Claim C2 counterexample: `new_big_key` accepts the degenerate leakage
tolerances 0 and 1 and returns a constructed `BigKey` storing them — it
does not fail (its return type is not even a `Result`). -/
theorem c2_counterexample :
    (BigKey.new_big_key SecurityLevel.Bits128 0
      ⟨BLOCK_4K, 0, []⟩ ()).leakage_tolerance = 0 ∧
    (BigKey.new_big_key SecurityLevel.Bits128 1
      ⟨BLOCK_4K, 0, []⟩ ()).leakage_tolerance = 1 :=
  ⟨rfl, rfl⟩

/-- Claim C2 (amended): `new_big_key` performs no validation at all — for
every security level, leakage tolerance (including values outside the open
interval (0, 1)) and store, construction unconditionally succeeds, storing
the arguments unchanged; no `InvalidLeakageTolerance` error exists. -/
theorem c2_no_validation {α : Type} (security_level : SecurityLevel)
    (leakage_tolerance : Rat) (storage_scheme : DiskStorage) (xof : α) :
    BigKey.new_big_key security_level leakage_tolerance storage_scheme xof =
      { security_level := security_level,
        leakage_tolerance := leakage_tolerance,
        storage_scheme := storage_scheme, xof := xof } :=
  rfl

/-- Claim C3 counterexample: for the index `2 ^ 62` on a one-block store
with 4-byte blocks, the true offset `(2 ^ 62 + 1) * 4` is past the end of
the key, yet `probe` succeeds (the u64 offset computation wraps to 0) —
contradicting the claim's requirement of an `OutOfBounds` error for every
such index. -/
theorem c3_counterexample :
    4 < (2 ^ 62 + 1) * BLOCK_32.byte_len ∧
    DiskStorage.probe ⟨BLOCK_32, 4, [1, 2, 3, 4]⟩ (2 ^ 62) 4 =
      .ok [1, 2, 3, 4] :=
  ⟨by decide, rfl⟩

/-- Claim C3 (amended): provided the byte offset arithmetic does not
overflow u64 (i.e. `(index + 1) * byte_len < 2 ^ 64`), `probe` fails with
`ProbeBufferNotEqBlockSize` when the buffer length differs from the block
size, fails with `ProbeOffsetOutOfBounds` when
`(index + 1) * byte_len > total_length`, and otherwise succeeds, reading
exactly the block at byte offset `index * byte_len`. -/
theorem c3_probe_spec (s : DiskStorage) (i outLen : Nat)
    (hwf : s.file.length = s.big_key_length)
    (hov : (i + 1) * s.block_size.byte_len < 2 ^ 64) :
    (outLen ≠ s.block_size.byte_len →
      s.probe i outLen =
        .error (.ProbeBufferNotEqBlockSize outLen s.block_size.byte_len)) ∧
    (outLen = s.block_size.byte_len →
      s.big_key_length < (i + 1) * s.block_size.byte_len →
      s.probe i outLen =
        .error (.ProbeOffsetOutOfBounds s.big_key_length
          (i * s.block_size.byte_len) s.block_size.byte_len)) ∧
    (outLen = s.block_size.byte_len →
      (i + 1) * s.block_size.byte_len ≤ s.big_key_length →
      s.probe i outLen =
        .ok ((s.file.drop (i * s.block_size.byte_len)).take
          s.block_size.byte_len)) := by
  have hmul : (i + 1) * s.block_size.byte_len =
      i * s.block_size.byte_len + s.block_size.byte_len := Nat.succ_mul _ _
  have h1 : i * s.block_size.byte_len % 2 ^ 64 = i * s.block_size.byte_len :=
    Nat.mod_eq_of_lt (by omega)
  have h2 : (i * s.block_size.byte_len + s.block_size.byte_len) % 2 ^ 64 =
      i * s.block_size.byte_len + s.block_size.byte_len :=
    Nat.mod_eq_of_lt (by omega)
  refine ⟨fun hne => ?_, fun he hgt => ?_, fun he hle => ?_⟩
  · simp only [DiskStorage.probe, if_pos hne]
  · subst he
    simp only [DiskStorage.probe, h1, h2,
      if_neg (show ¬ s.block_size.byte_len ≠ s.block_size.byte_len from
        fun hc => hc rfl)]
    rw [if_pos (show s.big_key_length <
      i * s.block_size.byte_len + s.block_size.byte_len by omega)]
  · subst he
    simp only [DiskStorage.probe, h1, h2,
      if_neg (show ¬ s.block_size.byte_len ≠ s.block_size.byte_len from
        fun hc => hc rfl)]
    rw [if_neg (show ¬ s.big_key_length <
        i * s.block_size.byte_len + s.block_size.byte_len by omega),
      if_pos (show i * s.block_size.byte_len + s.block_size.byte_len ≤
        s.file.length by omega)]

/-- Claim C3 witness: an in-bounds probe on a two-block store returns the
second block. -/
theorem c3_probe_spec_witness :
    DiskStorage.probe ⟨BLOCK_32, 8, [31, 32, 33, 34, 35, 36, 37, 38]⟩ 1 4 =
      .ok [35, 36, 37, 38] :=
  (c3_probe_spec ⟨BLOCK_32, 8, [31, 32, 33, 34, 35, 36, 37, 38]⟩ 1 4 rfl
    (by decide)).2.2 rfl (by decide)

/-- Claim C4: `finalize` succeeds exactly when the medium's observed length
equals the expected length recorded at creation, and otherwise fails with
`FailedToWriteBigKey` carrying the expected and actual lengths. -/
theorem c4_finalize_iff (s : DiskStorage) :
    (DiskStorage.finalize s = .ok () ↔
      s.file.length = s.big_key_length) ∧
    (s.file.length ≠ s.big_key_length →
      DiskStorage.finalize s =
        .error (.FailedToWriteBigKey s.big_key_length s.file.length)) := by
  constructor
  · constructor
    · intro h
      by_contra hne
      simp [DiskStorage.finalize, hne] at h
    · intro h
      simp [DiskStorage.finalize, h]
  · intro h
    simp [DiskStorage.finalize, h]

/-- Claim C4 witness: a complete write finalizes, a short write fails with
the expected and actual lengths. -/
theorem c4_finalize_iff_witness :
    DiskStorage.finalize ⟨BLOCK_8, 2, [9, 9]⟩ = .ok () ∧
    DiskStorage.finalize ⟨BLOCK_8, 3, [9, 9]⟩ =
      .error (.FailedToWriteBigKey 3 2) :=
  ⟨(c4_finalize_iff ⟨BLOCK_8, 2, [9, 9]⟩).1.mpr rfl,
   (c4_finalize_iff ⟨BLOCK_8, 3, [9, 9]⟩).2 (by decide)⟩

/-- Claim C5 (code bug): opening a 4097-byte medium with a 4-byte block
size fails, but with the untyped io error built by
`check_key_evenly_divisible` (surfacing as `IoError` with kind
`InvalidInput`), not with the typed `KeyLengthIndivisible` variant that the
claim — and the repository's own test
`open_fails_when_key_file_length_not_evenly_divisible_by_block` —
expect. -/
theorem c5_open_error_is_untyped_io_error :
    DiskStorage.open_for_read BLOCK_32 (some (List.replicate 4097 0)) =
      some (.error (.IoError .InvalidInput)) := by
  have hmod : (4097 : Nat) % BLOCK_32.byte_len ≠ 0 := by decide
  simp only [DiskStorage.open_for_read, DiskStorage.new,
    check_key_evenly_divisible, List.length_replicate, if_pos hmod]

/-- Claim C6: every successfully constructed `DiskStorage` satisfies
`big_key_length % block_size.byte_len = 0`, and the only store-mutating
operation (`write_all`, the append path) leaves both fields untouched, so
no operation breaks the invariant. -/
theorem c6_alignment_invariant :
    (∀ (bs : BlockSize) (medium : Option (List Nat)) (expected : Option Nat)
        (mode : IoMode) (s : DiskStorage),
        DiskStorage.new bs medium expected mode = some (.ok s) →
        s.big_key_length % s.block_size.byte_len = 0) ∧
    (∀ (s : DiskStorage) (buf : List Nat),
        (s.write_all buf).big_key_length = s.big_key_length ∧
        (s.write_all buf).block_size = s.block_size) := by
  constructor
  · intro bs medium expected mode s h
    cases mode with
    | READ =>
      cases medium with
      | none => simp [DiskStorage.new] at h
      | some f =>
        simp only [DiskStorage.new] at h
        cases hch : check_key_evenly_divisible bs f.length with
        | error e =>
          simp only [hch] at h
          simp at h
        | ok u =>
          simp only [hch, Option.some.injEq, Except.ok.injEq] at h
          subst h
          show f.length % bs.byte_len = 0
          unfold check_key_evenly_divisible at hch
          split at hch
          · exact absurd hch (by simp)
          · next hcond => omega
    | WRITE =>
      cases expected with
      | none => simp [DiskStorage.new] at h
      | some n =>
        simp only [DiskStorage.new] at h
        cases hch : check_key_evenly_divisible bs n with
        | error e =>
          simp only [hch] at h
          simp at h
        | ok u =>
          simp only [hch, Option.some.injEq, Except.ok.injEq] at h
          subst h
          show n % bs.byte_len = 0
          unfold check_key_evenly_divisible at hch
          split at hch
          · exact absurd hch (by simp)
          · next hcond => omega
  · intro s buf
    exact ⟨rfl, rfl⟩

/-- Claim C6 witness: a read-opened 8-byte store with 4-byte blocks
satisfies the alignment invariant. -/
theorem c6_alignment_invariant_witness :
    (⟨BLOCK_32, 8, List.replicate 8 0⟩ : DiskStorage).big_key_length %
      (⟨BLOCK_32, 8, List.replicate 8 0⟩ : DiskStorage).block_size.byte_len =
      0 :=
  c6_alignment_invariant.1 BLOCK_32 (some (List.replicate 8 0)) none .READ
    ⟨BLOCK_32, 8, List.replicate 8 0⟩ rfl

set_option maxRecDepth 100000 in
/-- Claim C7: `generate` is deterministic — the appended byte stream is
`shake256 seed w` with `w = byte_len * ceil(len / byte_len)`, a function of
the seed, block size and requested length only — and the first 8 output
bytes for the fixed 64-byte seed are `5a 81 82 c1 e3 72 89 f4`. -/
theorem c7_generate_deterministic :
    (∀ (s : DiskStorage) (seed : List Nat) (len : Nat),
        0 < s.block_size.byte_len → MIN_SEED_LENGTH ≤ seed.length →
        len ≤ MAX_OUTPUT_LENGTH →
        Shake256Generator.generate s (some seed) len =
          some (genFinish { s with file := s.file ++
            (shake256 seed (s.block_size.byte_len *
              ((len + s.block_size.byte_len - 1) /
                s.block_size.byte_len))) })) ∧
    shake256 seed64 8 = [0x5a, 0x81, 0x82, 0xc1, 0xe3, 0x72, 0x89, 0xf4] :=
  ⟨fun s seed len hb hs hl => generate_run s seed len hb hs hl, by rfl⟩

set_option maxRecDepth 100000 in
/-- Claim C7 witness: the repository's `generate_known_answer_test` —
generating 8 bytes with 1-byte blocks from the fixed seed yields exactly
the known-answer bytes. -/
theorem c7_generate_deterministic_witness :
    Shake256Generator.generate ⟨BLOCK_8, 8, []⟩ (some seed64) 8 =
      some (.ok ⟨BLOCK_8, 8, [0x5a, 0x81, 0x82, 0xc1, 0xe3, 0x72, 0x89, 0xf4]⟩) := by
  have h := c7_generate_deterministic.1 ⟨BLOCK_8, 8, []⟩ seed64 8
    Nat.one_pos (by decide) (by decide)
  exact h.trans (by rfl)

set_option maxRecDepth 100000 in
/-- Claim C8 counterexample: requesting 6 bytes from a store with 4-byte
blocks appends 8 bytes, not exactly 6 — the loop appends whole blocks until
the total reaches or exceeds the request. -/
theorem c8_counterexample :
    Shake256Generator.generate ⟨BLOCK_32, 8, []⟩ (some seed64) 6 =
      some (.ok ⟨BLOCK_32, 8,
        [0x5a, 0x81, 0x82, 0xc1, 0xe3, 0x72, 0x89, 0xf4]⟩) ∧
    6 < ([0x5a, 0x81, 0x82, 0xc1, 0xe3, 0x72, 0x89, 0xf4] : List Nat).length :=
  ⟨by rfl, by decide⟩

/-- Claim C8 (amended): `generate` appends `byte_len`-sized chunks until the
total reaches or exceeds `length_bytes` — a multiple of the block size that
is at least `length_bytes` and overshoots by less than one block (hence
exactly `length_bytes` when the block size divides it) — and then calls
`finalize()` on the store. -/
theorem c8_generate_appends_rounded (s : DiskStorage) (seed : List Nat)
    (len : Nat) (hb : 0 < s.block_size.byte_len)
    (hseed : MIN_SEED_LENGTH ≤ seed.length) (hlen : len ≤ MAX_OUTPUT_LENGTH) :
    ∃ bytes : List Nat,
      bytes.length % s.block_size.byte_len = 0 ∧ len ≤ bytes.length ∧
      bytes.length < len + s.block_size.byte_len ∧
      Shake256Generator.generate s (some seed) len =
        some (genFinish { s with file := s.file ++ bytes }) := by
  obtain ⟨hlo, hhi⟩ := ceil_bounds len s.block_size.byte_len hb
  refine ⟨shake256 seed (s.block_size.byte_len *
    ((len + s.block_size.byte_len - 1) / s.block_size.byte_len)),
    ?_, ?_, ?_, generate_run s seed len hb hseed hlen⟩
  · rw [shake256_length]
    exact Nat.mul_mod_right _ _
  · rw [shake256_length]
    exact hlo
  · rw [shake256_length]
    exact hhi

/-- Claim C8 witness: requesting 6 bytes with 4-byte blocks appends a block
multiple in `[6, 10)` (namely 8) and runs `finalize`. -/
theorem c8_generate_appends_rounded_witness :
    ∃ bytes : List Nat,
      bytes.length % 4 = 0 ∧ 6 ≤ bytes.length ∧ bytes.length < 6 + 4 ∧
      Shake256Generator.generate ⟨BLOCK_32, 8, []⟩ (some seed64) 6 =
        some (genFinish ⟨BLOCK_32, 8, bytes⟩) :=
  c8_generate_appends_rounded ⟨BLOCK_32, 8, []⟩ seed64 6 (Nat.succ_pos 3)
    (by decide) (by decide)

/-- Claim C9: for every length within the allowed maximum, calling
`generate` with `seed = None` panics (`optional_seed.unwrap()`), modelled
as `none` — it does not return a typed error. -/
theorem c9_none_seed_panics (s : DiskStorage) (len : Nat)
    (hlen : len ≤ MAX_OUTPUT_LENGTH) :
    Shake256Generator.generate s none len = none := by
  unfold Shake256Generator.generate
  rw [if_neg (Nat.not_lt.mpr hlen)]

/-- Claim C9 witness. -/
theorem c9_none_seed_panics_witness :
    Shake256Generator.generate ⟨BLOCK_4K, 0, []⟩ none 0 = none :=
  c9_none_seed_panics ⟨BLOCK_4K, 0, []⟩ 0 (by decide)

/-- Claim C10 (code bug): for index `2 ^ 61` with 8-byte blocks the true
byte offset is `2 ^ 64`, which wraps to 0 in the u64 offset computation;
the bounds check passes and `probe` successfully reads block 0 instead of
failing with an out-of-bounds error. -/
theorem c10_overflow_defeats_bounds_check :
    2 ^ 64 ≤ 2 ^ 61 * BLOCK_64.byte_len ∧
    DiskStorage.probe ⟨BLOCK_64, 8, [10, 11, 12, 13, 14, 15, 16, 17]⟩
      (2 ^ 61) 8 = .ok [10, 11, 12, 13, 14, 15, 16, 17] :=
  ⟨by decide, rfl⟩

end BFD
